import Mathlib

/-!
Verification of the recommendation-engine logic of this repository
(a corpus of near-identical Streamlit movie-dashboard variants).

The embedding translates the Python helpers that the claims are about:

* `boost_recommendations` (genre-overlap boosting of a base list),
* `get_top_genres` (Counter-based affinity profile),
* `get_genre_recommendations` plus the Recommendations-tab dispatch
  (external-model result vs genre/popularity fallback),
* `mark_watched` (duplicate-checked and plain-INSERT variants),
* `unwatch_movie`,
* `recommend_for_user` (pickled triple-list model wrapper),
* the card-rendering loop that skips titles missing from the catalog.

Library semantics that the code leans on are embedded explicitly:

* pandas `DataFrame.sort_values(by=k, ascending=False)` computes an
  ascending argsort of the key column and then reverses the whole
  indexer (`pandas.core.sorting.nargsort`: `indexer = indexer[::-1]`).
  We model the ascending argsort as a stable sort (exact for the small
  frames used in every concrete statement below; numpy's default
  quicksort runs plain insertion sort below its partition threshold),
  so the descending sort is: stable ascending sort, then reverse.
  In particular rows with equal keys come out in reversed input order.
* Python `sorted(xs, key=f, reverse=True)` and `Counter.most_common(k)`
  (via `heapq.nlargest`) are stable descending sorts: rows with equal
  keys keep their input order.  We model them as a stable sort by the
  negated key.
* SQLite tables are rows in insertion order (`List (String × String)`);
  `INSERT` appends, `DELETE ... WHERE` filters.
* Machine floats are modelled as exact rationals (`ℚ`).
-/

/-! ### Stable insertion sort, used to embed the library sorts

`sinsert key x l` inserts `x` after every element of `l` whose key is
strictly smaller than `key x`, hence before every element with an equal
or larger key; `ssort` is the induced stable ascending insertion sort.
-/

def sinsert {α β : Type} [LinearOrder β] (key : α → β) (x : α) : List α → List α
  | [] => [x]
  | y :: ys => if key y < key x then y :: sinsert key x ys else x :: y :: ys

def ssort {α β : Type} [LinearOrder β] (key : α → β) : List α → List α
  | [] => []
  | a :: l => sinsert key a (ssort key l)

/-- Embedding of pandas `sort_values(by=key, ascending=False)` followed by
`reset_index(drop=True)`: stable ascending argsort, then the indexer is
reversed (`nargsort` with `ascending=False`). -/
def pandasSortDesc {α β : Type} [LinearOrder β] (key : α → β) (l : List α) : List α :=
  (ssort key l).reverse

/-! ### Counter and `most_common`

`collections.Counter` iterates a sequence and keeps one entry per distinct
element, in first-encounter order; `most_common(k)` is
`heapq.nlargest(k, items, key=count)`, a stable descending sort by count
truncated to `k`. -/

/-- Distinct elements of a list in first-encounter order, skipping the ones
already seen (the dict-insertion discipline of a `Counter`). -/
def firstKeysAux : List String → List String → List String
  | [], _ => []
  | a :: t, seen => if a ∈ seen then firstKeysAux t seen else a :: firstKeysAux t (a :: seen)

/-- Distinct elements of a list in first-encounter order (the key order of a
`Counter` built from the list). -/
def firstKeys (l : List String) : List String :=
  firstKeysAux l []

/-- Index of the first occurrence of `x` in `l` (the position in scan
order; `l.length` when absent). -/
def firstIdx (l : List String) (x : String) : Nat :=
  l.findIdx (fun y => y == x)

/-- Embedding of `[g for g, _ in Counter(l).most_common(k)]`: pair each
distinct element with its count, sort stably by descending count, keep the
first `k` keys. -/
def mostCommon (l : List String) (k : Nat) : List String :=
  (((ssort (fun p : String × Nat => -(p.2 : Int))
      ((firstKeys l).map (fun g => (g, l.count g)))).take k).map (fun p => p.1))

/-! ### `boost_recommendations` (dashboard variant 2, part_000 lines 123-169) -/

/-- Row of `recs_df`: at least `movie_id` and `score`. -/
structure RecRow where
  movie_id : Int
  score : ℚ
deriving DecidableEq, Repr

/-- Row of `movie_metadata_df`: `movie_id` and the pipe-separated
`genres_clean` string. -/
structure MetaRow where
  movie_id : Int
  genres_clean : String
deriving DecidableEq, Repr

/-- Split a character list on `'|'` separators, like Python
`s.split("|")`: the segments between separators, in order, including empty
segments (so the empty string yields one empty segment). -/
def splitPipeAux (cur : List Char) : List Char → List (List Char)
  | [] => [cur.reverse]
  | c :: cs => if c = '|' then cur.reverse :: splitPipeAux [] cs else splitPipeAux (c :: cur) cs

/-- Python `s.split("|")` on a string. -/
def pySplitPipe (s : String) : List String :=
  (splitPipeAux [] s.data).map (fun cs => String.mk cs)

/-- Python `s.strip()`: drop whitespace from both ends. -/
def pyStrip (s : String) : String :=
  String.mk (((s.data.dropWhile (fun c => c.isWhitespace)).reverse.dropWhile
    (fun c => c.isWhitespace)).reverse)

/-- Embedding of
`lambda g: [gg.strip() for gg in g.split("|")] if isinstance(g, str) else []`
applied to a genres string (`genres_clean` is always a string here, so the
`isinstance` branch is taken). -/
def splitGenres (g : String) : List String :=
  (pySplitPipe g).map (fun s => pyStrip s)

/-- Row of the frame produced by
`recs_df.merge(meta[['movie_id','genres_list']], on='movie_id', how='left')`;
`genres_list` is `none` when the movie id has no metadata row (pandas NaN). -/
structure MergedRow where
  movie_id : Int
  score : ℚ
  genres_list : Option (List String)
deriving DecidableEq, Repr

/-- Row after the `overlap` and `score_boosted` columns have been added. -/
structure BRow where
  movie_id : Int
  score : ℚ
  genres_list : Option (List String)
  overlap : ℚ
  score_boosted : ℚ
deriving DecidableEq, Repr

/-- Left merge on `movie_id`: every `recs_df` row in order; a row per
matching metadata row, or a single row with missing `genres_list` when there
is no match. -/
def leftMerge (recs : List RecRow) (meta : List (Int × List String)) : List MergedRow :=
  recs.flatMap (fun r =>
    match meta.filter (fun m => m.1 == r.movie_id) with
    | [] => [⟨r.movie_id, r.score, none⟩]
    | ms => ms.map (fun m => ⟨r.movie_id, r.score, some m.2⟩))

/-- Embedding of the inner `overlap_boost` helper: missing or empty genre
list gives `0.0`; otherwise the number of distinct genres shared with the
preference list divided by `max(len(user_pref_genres), 1)` (zero overlap
short-circuits to `0.0`, which equals the ratio anyway). -/
def overlap_boost (user_pref_genres : List String) (genres_list : Option (List String)) : ℚ :=
  match genres_list with
  | none => 0
  | some gs =>
    if gs.isEmpty then 0
    else
      let overlap := (gs.dedup.filter (fun g => g ∈ user_pref_genres)).length
      if overlap = 0 then 0
      else (overlap : ℚ) / ((max user_pref_genres.length 1 : Nat) : ℚ)

/-- Minimum of a pandas numeric column (frames in scope are nonempty where it
matters; `0` is a dummy for the empty frame). -/
def sMin : List ℚ → ℚ
  | [] => 0
  | x :: xs => xs.foldl min x

/-- Maximum of a pandas numeric column. -/
def sMax : List ℚ → ℚ
  | [] => 0
  | x :: xs => xs.foldl max x

/-- Result of `boost_recommendations`: the early-return branch hands back the
input frame itself (no `genres_list`, `overlap` or `score_boosted` column),
the main branch hands back the merged-and-boosted frame. -/
inductive BoostResult
  | plain (rows : List RecRow)
  | boosted (rows : List BRow)
deriving DecidableEq, Repr

/-- The `movie_id` column of either kind of result. -/
def resultIds : BoostResult → List Int
  | .plain rows => rows.map (fun r => r.movie_id)
  | .boosted rows => rows.map (fun r => r.movie_id)

/-- The rows of the boosted branch (empty for the early-return branch). -/
def boostedRows : BoostResult → List BRow
  | .plain _ => []
  | .boosted rows => rows

/-- Whether the result carries an `overlap` column that is zero on every row
(the behaviour the spec ascribes to the empty-profile case). -/
def carriesZeroOverlap : BoostResult → Bool
  | .plain _ => false
  | .boosted rows => rows.all (fun r => r.overlap == 0)

/-- Embedding of `boost_recommendations(recs_df, user_pref_genres,
movie_metadata_df, boost_factor)` (part_000 lines 123-169):

* `if not user_pref_genres: return recs_df` — empty preference list returns
  the input frame unchanged;
* otherwise: split `genres_clean` into `genres_list` on a copy of the
  metadata, left-merge onto the recommendations, add
  `overlap = overlap_boost(genres_list)`,
  `score_range = max(1e-6, max(score) - min(score))`,
  `score_boosted = score + boost_factor * score_range * overlap`,
  and sort by `score_boosted` descending. -/
def boost_recommendations (recs_df : List RecRow) (user_pref_genres : List String)
    (movie_metadata_df : List MetaRow) (boost_factor : ℚ) : BoostResult :=
  if user_pref_genres.isEmpty then .plain recs_df
  else
    let meta := movie_metadata_df.map (fun m => (m.movie_id, splitGenres m.genres_clean))
    let merged := leftMerge recs_df meta
    let withOv := merged.map (fun r => (r, overlap_boost user_pref_genres r.genres_list))
    let score_range := max (1 / 1000000 : ℚ)
      (sMax (merged.map (fun r => r.score)) - sMin (merged.map (fun r => r.score)))
    let brows := withOv.map (fun p =>
      BRow.mk p.1.movie_id p.1.score p.1.genres_list p.2
        (p.1.score + boost_factor * score_range * p.2))
    .boosted (pandasSortDesc (fun r : BRow => r.score_boosted) brows)

/-- Metadata lookup as the claims state it: the first metadata row of a
movie id, split into a genre list (`none` when the id is absent). -/
def lookupGenres (meta : List MetaRow) (mid : Int) : Option (List String) :=
  (meta.find? (fun m => m.movie_id == mid)).map (fun m => splitGenres m.genres_clean)

/-- The overlap ratio as the spec words it:
`|entry.genres ∩ affinityProfile| / max(|affinityProfile|, 1)`, with an
absent catalog entry contributing no genres. -/
def specOverlapRatio (meta : List MetaRow) (prefs : List String) (mid : Int) : ℚ :=
  match lookupGenres meta mid with
  | none => 0
  | some gs => ((gs.dedup.filter (fun g => g ∈ prefs)).length : ℚ) /
      ((max prefs.length 1 : Nat) : ℚ)

/-! ### Catalog rows and the affinity profile (`get_top_genres`) -/

/-- Row of `movie_metadata.csv` / `movies_df`: `title`, pipe-separated
`genres_clean`, `avg_rating`. -/
structure Movie where
  title : String
  genres_clean : String
  avg_rating : ℚ
deriving DecidableEq, Repr

/-- The genre multiset scanned in catalog order:
`movies_df[movies_df['title'].isin(watched)]['genres_clean'].str.split('|').explode()`. -/
def scanGenres (movies_df : List Movie) (watched : List String) : List String :=
  (movies_df.filter (fun m => m.title ∈ watched)).flatMap
    (fun m => pySplitPipe m.genres_clean)

/-- Embedding of `get_top_genres(username, k)` (part_000 lines 450-458): the
watched rows of the catalog in catalog order, genres split on `|` and
exploded (`dropna` is a no-op here: every `genres_clean` is a string), then
`Counter(...).most_common(k)` keys.  `watched` is `get_watched(username)`. -/
def get_top_genres (movies_df : List Movie) (watched : List String) (k : Nat) : List String :=
  if watched.isEmpty then []
  else mostCommon (scanGenres movies_df watched) k

/-! ### `get_genre_recommendations` and the Recommendations-tab dispatch
(part_000 lines 1940-2040 variant, cited at 1961-1972 and 2032-2036) -/

/-- Character-list prefix test (helper for the substring test). -/
def charsStartWith : List Char → List Char → Bool
  | [], _ => true
  | _ :: _, [] => false
  | a :: as, b :: bs => a == b && charsStartWith as bs

/-- Character-list containment test (helper for the substring test). -/
def charsContain (needle : List Char) : List Char → Bool
  | [] => needle.isEmpty
  | b :: bs => charsStartWith needle (b :: bs) || charsContain needle bs

/-- Substring test: Python `genre in g` on strings. -/
def substrS (needle hay : String) : Bool :=
  charsContain needle.data hay.data

/-- Embedding of `get_genre_recommendations(username, top_n)` (lines
1961-1972): a user with no watched titles gets the globally top-rated
titles; otherwise the unwatched titles whose `genres_clean` string contains
one of the user's top-4 genres, sorted by `avg_rating` descending, truncated
to `top_n`.  Note the genre test is a raw substring test on the
pipe-separated string. -/
def get_genre_recommendations (movies_df : List Movie) (watched : List String)
    (top_n : Nat) : List String :=
  if watched.isEmpty then
    ((pandasSortDesc (fun m : Movie => m.avg_rating) movies_df).take top_n).map
      (fun m => m.title)
  else
    let top_genres := mostCommon (scanGenres movies_df watched) 4
    let recs := movies_df.filter (fun m => ¬ (m.title ∈ watched))
    let recs := recs.filter (fun m => top_genres.any (fun g => substrS g m.genres_clean))
    ((pandasSortDesc (fun m : Movie => m.avg_rating) recs).take top_n).map
      (fun m => m.title)

/-- Embedding of the Recommendations-tab dispatch (lines 2032-2036):
`final_recs` is the pickled mapping from numeric user id to a ranked title
list; `uid` is `int(username)` when that parse succeeds, else `none`.  A user
present in the model gets the model's list as is; everyone else gets the
genre fallback. -/
def recommendations_for_tab (final_recs : List (Int × List String)) (uid : Option Int)
    (movies_df : List Movie) (watched : List String) (top_n : Nat) : List String :=
  match uid with
  | some u =>
    match final_recs.find? (fun p => p.1 == u) with
    | some pr => pr.2
    | none => get_genre_recommendations movies_df watched top_n
  | none => get_genre_recommendations movies_df watched top_n

/-! ### Interaction store (`watched` table), `mark_watched`, `unwatch_movie` -/

/-- Embedding of the duplicate-checked `mark_watched` (part_000 lines
439-444): `SELECT 1 FROM watched WHERE username=? AND movie_title=?`, and
only on no hit `INSERT INTO watched VALUES (?, ?)`. -/
def mark_watched (watched : List (String × String)) (username movie_title : String) :
    List (String × String) :=
  if watched.any (fun p => p.1 == username && p.2 == movie_title) then watched
  else watched ++ [(username, movie_title)]

/-- Embedding of the plain-INSERT `mark_watched` (part_000 lines 1353-1355):
unconditional `INSERT INTO watched VALUES (?, ?)`; the `watched` table has no
uniqueness constraint. -/
def mark_watched_plain (watched : List (String × String)) (username movie_title : String) :
    List (String × String) :=
  watched ++ [(username, movie_title)]

/-- Embedding of `unwatch_movie` (part_000 lines 3137-3139 and 3657-3662):
`DELETE FROM watched WHERE username=? AND movie_title=?`. -/
def unwatch_movie (watched : List (String × String)) (username movie_title : String) :
    List (String × String) :=
  watched.filter (fun p => !(p.1 == username && p.2 == movie_title))

/-! ### `recommend_for_user` (part_000 lines 908-922) and the card loop -/

/-- Metadata row as used by `recommend_for_user`: `movie_id` and `title`. -/
structure MovieMeta where
  movie_id : Int
  title : String
deriving DecidableEq, Repr

/-- Embedding of `recommend_for_user(user_id, model_data, movies_meta,
top_n)`: the model is a list of `(user, movie_id, score)` triples; the
user's triples are sorted by score descending (`sorted(..., reverse=True)`,
stable), truncated to `top_n`, and each movie id is resolved to its first
metadata title, or to the placeholder `"Movie ID <id>"` when the id has no
metadata row. -/
def recommend_for_user (user_id : Int) (model_data : List (Int × Int × ℚ))
    (movies_meta : List MovieMeta) (top_n : Nat) : List (String × ℚ) :=
  let user_preds := model_data.filter (fun t => t.1 == user_id)
  let top_preds := (ssort (fun t : Int × Int × ℚ => -t.2.2) user_preds).take top_n
  top_preds.map (fun t =>
    match movies_meta.find? (fun m => m.movie_id == t.2.1) with
    | some m => (m.title, t.2.2)
    | none => ("Movie ID " ++ toString t.2.1, t.2.2))

/-- Embedding of the Recommendations-tab card loop (part_000 lines
3841-3845): `row = movies_df[movies_df["title"] == title]; if row.empty:
continue` — only titles with a catalog row are rendered, in the order of the
recommendation list. -/
def rendered_rec_titles (movies_df : List Movie) (recs : List String) : List String :=
  recs.filter (fun t => (movies_df.find? (fun m => m.title == t)).isSome)

/-! ### The spec's composed `recommend()` (claim C1) -/

/-- Catalog entry for the composed pipeline: id, genres string, rating. -/
structure CatEntry where
  id : Int
  genres_clean : String
  avg_rating : ℚ
deriving DecidableEq, Repr

/-- Modelled from the spec: the repository has no single
`baseRecommendations`; each variant either indexes the pickled model or
falls back to top-rated unwatched rows (part_000 lines 1961-1972,
2032-2036).  Per the spec: the external model's list truncated to `limit`
when present, else the highest-rated unwatched catalog entries truncated to
`limit` (the pandas descending sort as in every variant). -/
def baseRecommendations (model : Option (List (Int × ℚ))) (catalog : List CatEntry)
    (watched : List Int) (limit : Nat) : List (Int × ℚ) :=
  match model with
  | some l => l.take limit
  | none =>
    ((pandasSortDesc (fun c : CatEntry => c.avg_rating)
        (catalog.filter (fun c => decide (c.id ∉ watched)))).take limit).map
      (fun c => (c.id, c.avg_rating))

/-- Modelled from the spec: no variant composes the full `recommend()` in
one function; the spec's composition (section 4) is assembled here from the
embedded code pieces: affinity profile (`get_top_genres` logic over ids),
`baseRecommendations` oversampled to `limit * 3`, `boost_recommendations`,
then the watched filter (part_000 line 2817) and the `head(limit)`
truncation (part_000 line 356). -/
def recommend (model : Option (List (Int × ℚ))) (catalog : List CatEntry)
    (watched : List Int) (limit : Nat) (boost_factor : ℚ) (profile_size : Nat) :
    List Int :=
  let profile := mostCommon
    ((catalog.filter (fun c => c.id ∈ watched)).flatMap
      (fun c => splitGenres c.genres_clean)) profile_size
  let base := baseRecommendations model catalog watched (limit * 3)
  let boosted := boost_recommendations (base.map (fun p => RecRow.mk p.1 p.2)) profile
    (catalog.map (fun c => MetaRow.mk c.id c.genres_clean)) boost_factor
  ((resultIds boosted).filter (fun i => decide (i ∉ watched))).take limit

/-! ### Heap model for the frame-effect claim (C10)

`boost_recommendations` receives references to two caller-owned DataFrames.
The heap holds every frame object; `copy()`, `merge` and
`sort_values().reset_index()` allocate fresh objects, while
`df[col] = ...` assigns a column in place on the object it is applied to.
The claim is that the in-place writes only ever hit freshly allocated
objects, so the caller's frames are untouched. -/

/-- A pandas frame object at some point of `boost_recommendations`. -/
inductive FrameV
  | recsF (rows : List RecRow)
  | metaF (rows : List MetaRow)
  | metaGL (rows : List (Int × List String))
  | mergedF (rows : List MergedRow)
  | overlapF (rows : List (MergedRow × ℚ))
  | boostedF (rows : List BRow)
deriving DecidableEq, Repr

/-- `boost_recommendations` with the object store explicit: `recsRef` and
`metaRef` are the caller's frames.  Each source line that allocates appends
a new object; each in-place column assignment `set`s an existing index; the
final sorted frame is a fresh allocation whose index is returned. -/
def boost_heap (h : List FrameV) (recsRef metaRef : Nat)
    (user_pref_genres : List String) (boost_factor : ℚ) : List FrameV × Nat :=
  if user_pref_genres.isEmpty then (h, recsRef)
  else
    let recs := match h[recsRef]? with | some (.recsF l) => l | _ => []
    let meta := match h[metaRef]? with | some (.metaF l) => l | _ => []
    -- meta = movie_metadata_df.copy(): fresh object
    let copyRef := h.length
    let h1 := h ++ [FrameV.metaF meta]
    -- meta['genres_list'] = meta['genres_clean'].apply(...): in-place on the copy
    let metaG := meta.map (fun m => (m.movie_id, splitGenres m.genres_clean))
    let h2 := h1.set copyRef (FrameV.metaGL metaG)
    -- merged = recs_df.merge(...): fresh object
    let mergedRef := h2.length
    let merged := leftMerge recs metaG
    let h3 := h2 ++ [FrameV.mergedF merged]
    -- merged['overlap'] = merged['genres_list'].apply(overlap_boost): in place
    let withOv := merged.map (fun r => (r, overlap_boost user_pref_genres r.genres_list))
    let h4 := h3.set mergedRef (FrameV.overlapF withOv)
    -- merged['score_boosted'] = merged['score'] + boost_factor * score_range * overlap
    let score_range := max (1 / 1000000 : ℚ)
      (sMax (merged.map (fun r => r.score)) - sMin (merged.map (fun r => r.score)))
    let brows := withOv.map (fun p =>
      BRow.mk p.1.movie_id p.1.score p.1.genres_list p.2
        (p.1.score + boost_factor * score_range * p.2))
    let h5 := h4.set mergedRef (FrameV.boostedF brows)
    -- merged = merged.sort_values(...).reset_index(drop=True): fresh object, returned
    let outRef := h5.length
    let h6 := h5 ++ [FrameV.boostedF (pandasSortDesc (fun r : BRow => r.score_boosted) brows)]
    (h6, outRef)

/-! ## Theorems

First the generic facts about the embedded library sorts, then the
claim-by-claim results. -/

theorem sinsert_perm {α β : Type} [LinearOrder β] (key : α → β) (x : α) (l : List α) :
    (sinsert key x l).Perm (x :: l) := by
  induction l with
  | nil => simp [sinsert]
  | cons y ys ih =>
    simp only [sinsert]
    by_cases h : key y < key x
    · rw [if_pos h]
      exact (ih.cons y).trans (List.Perm.swap x y ys)
    · rw [if_neg h]

theorem ssort_perm {α β : Type} [LinearOrder β] (key : α → β) (l : List α) :
    (ssort key l).Perm l := by
  induction l with
  | nil => simp [ssort]
  | cons a l ih => exact (sinsert_perm key a (ssort key l)).trans (ih.cons a)

theorem mem_ssort {α β : Type} [LinearOrder β] (key : α → β) {x : α} {l : List α} :
    x ∈ ssort key l ↔ x ∈ l :=
  (ssort_perm key l).mem_iff

theorem length_ssort {α β : Type} [LinearOrder β] (key : α → β) (l : List α) :
    (ssort key l).length = l.length :=
  (ssort_perm key l).length_eq

/-- Combined sortedness-and-stability invariant of the stable insertion:
inserting an element that the order relation `R` puts before every current
element preserves the invariant "keys ascend, and on key ties `R` holds". -/
theorem sinsert_pairwise {α β : Type} [LinearOrder β] (key : α → β) {R : α → α → Prop}
    (x : α) (l : List α)
    (hl : l.Pairwise (fun a b => key a ≤ key b ∧ (key b ≤ key a → R a b)))
    (hx : ∀ y ∈ l, R x y) :
    (sinsert key x l).Pairwise (fun a b => key a ≤ key b ∧ (key b ≤ key a → R a b)) := by
  induction l with
  | nil => simp [sinsert]
  | cons y ys ih =>
    simp only [sinsert]
    rcases List.pairwise_cons.mp hl with ⟨hy, hys⟩
    by_cases h : key y < key x
    · rw [if_pos h]
      refine List.pairwise_cons.mpr ⟨?_, ih hys (fun z hz => hx z (List.mem_cons_of_mem y hz))⟩
      intro z hz
      have hz2 : z = x ∨ z ∈ ys := by
        simpa using (sinsert_perm key x ys).mem_iff.mp hz
      rcases hz2 with rfl | hz2
      · exact ⟨le_of_lt h, fun hle => absurd h (not_lt.mpr hle)⟩
      · exact hy z hz2
    · rw [if_neg h]
      have hxy : key x ≤ key y := not_lt.mp h
      refine List.pairwise_cons.mpr ⟨?_, hl⟩
      intro z hz
      rcases List.mem_cons.mp hz with rfl | hz2
      · exact ⟨hxy, fun _ => hx _ (List.mem_cons_self _ _)⟩
      · exact ⟨le_trans hxy (hy z hz2).1, fun _ => hx z (List.mem_cons_of_mem y hz2)⟩

/-- The stable sort of an `R`-ordered list is key-ascending and keeps `R` on
key ties. -/
theorem ssort_pairwise {α β : Type} [LinearOrder β] (key : α → β) {R : α → α → Prop}
    (l : List α) (hl : l.Pairwise R) :
    (ssort key l).Pairwise (fun a b => key a ≤ key b ∧ (key b ≤ key a → R a b)) := by
  induction l with
  | nil => simp [ssort]
  | cons a l ih =>
    rcases List.pairwise_cons.mp hl with ⟨ha, hl2⟩
    exact sinsert_pairwise key a (ssort key l) (ih hl2)
      (fun y hy => ha y ((ssort_perm key l).mem_iff.mp hy))

theorem ssort_sorted {α β : Type} [LinearOrder β] (key : α → β) (l : List α) :
    (ssort key l).Pairwise (fun a b => key a ≤ key b) := by
  have hp : l.Pairwise (fun _ _ => True) := by
    induction l with
    | nil => exact List.Pairwise.nil
    | cons a t ih => exact List.pairwise_cons.mpr ⟨fun _ _ => trivial, ih⟩
  exact (ssort_pairwise key l hp).imp (fun h => h.1)

theorem pandasSortDesc_perm {α β : Type} [LinearOrder β] (key : α → β) (l : List α) :
    (pandasSortDesc key l).Perm l :=
  (List.reverse_perm (ssort key l)).trans (ssort_perm key l)

theorem mem_pandasSortDesc {α β : Type} [LinearOrder β] (key : α → β) {x : α} {l : List α} :
    x ∈ pandasSortDesc key l ↔ x ∈ l :=
  (pandasSortDesc_perm key l).mem_iff

theorem length_pandasSortDesc {α β : Type} [LinearOrder β] (key : α → β) (l : List α) :
    (pandasSortDesc key l).length = l.length :=
  (pandasSortDesc_perm key l).length_eq

theorem pandasSortDesc_sorted {α β : Type} [LinearOrder β] (key : α → β) (l : List α) :
    (pandasSortDesc key l).Pairwise (fun a b => key b ≤ key a) := by
  rw [pandasSortDesc, List.pairwise_reverse]
  exact ssort_sorted key l

/-! Facts about `firstIdx` and the Counter key order. -/

theorem firstIdx_cons_self (a : String) (t : List String) :
    firstIdx (a :: t) a = 0 := by
  simp [firstIdx, List.findIdx_cons]

theorem firstIdx_cons_ne {x a : String} (t : List String) (h : x ≠ a) :
    firstIdx (a :: t) x = firstIdx t x + 1 := by
  have : (a == x) = false := beq_eq_false_iff_ne.mpr (Ne.symm h)
  simp [firstIdx, List.findIdx_cons, this]

theorem mem_firstKeysAux :
    ∀ (l seen : List String) (x : String), x ∈ firstKeysAux l seen → x ∈ l ∧ x ∉ seen := by
  intro l
  induction l with
  | nil => intro seen x hx; simp [firstKeysAux] at hx
  | cons a t ih =>
    intro seen x hx
    simp only [firstKeysAux] at hx
    by_cases h : a ∈ seen
    · rw [if_pos h] at hx
      rcases ih seen x hx with ⟨h1, h2⟩
      exact ⟨List.mem_cons_of_mem a h1, h2⟩
    · rw [if_neg h] at hx
      rcases List.mem_cons.mp hx with rfl | hx2
      · exact ⟨List.mem_cons_self x t, h⟩
      · rcases ih (a :: seen) x hx2 with ⟨h1, h2⟩
        exact ⟨List.mem_cons_of_mem a h1, fun hs => h2 (List.mem_cons_of_mem a hs)⟩

theorem firstKeysAux_pairwise :
    ∀ (l seen : List String),
      (firstKeysAux l seen).Pairwise (fun x y => firstIdx l x < firstIdx l y) := by
  intro l
  induction l with
  | nil => intro seen; simp [firstKeysAux]
  | cons a t ih =>
    intro seen
    simp only [firstKeysAux]
    by_cases h : a ∈ seen
    · rw [if_pos h]
      refine (ih seen).imp_of_mem ?_
      intro x y hx hy hR
      have hxa : x ≠ a := fun hxa => (mem_firstKeysAux t seen x hx).2 (hxa ▸ h)
      have hya : y ≠ a := fun hya => (mem_firstKeysAux t seen y hy).2 (hya ▸ h)
      rw [firstIdx_cons_ne t hxa, firstIdx_cons_ne t hya]
      omega
    · rw [if_neg h]
      refine List.pairwise_cons.mpr ⟨?_, ?_⟩
      · intro y hy
        have hya : y ≠ a := fun hya =>
          (mem_firstKeysAux t (a :: seen) y hy).2 (hya ▸ List.mem_cons_self a seen)
        rw [firstIdx_cons_self, firstIdx_cons_ne t hya]
        omega
      · refine (ih (a :: seen)).imp_of_mem ?_
        intro x y hx hy hR
        have hxa : x ≠ a := fun hxa =>
          (mem_firstKeysAux t (a :: seen) x hx).2 (hxa ▸ List.mem_cons_self a seen)
        have hya : y ≠ a := fun hya =>
          (mem_firstKeysAux t (a :: seen) y hy).2 (hya ▸ List.mem_cons_self a seen)
        rw [firstIdx_cons_ne t hxa, firstIdx_cons_ne t hya]
        omega

theorem firstKeys_pairwise (l : List String) :
    (firstKeys l).Pairwise (fun x y => firstIdx l x < firstIdx l y) :=
  firstKeysAux_pairwise l []

theorem length_mostCommon_le (l : List String) (k : Nat) :
    (mostCommon l k).length ≤ k := by
  simp only [mostCommon, List.length_map]
  exact List.length_take_le k _

/-- `most_common(k)` lists genres by descending count, and genres with equal
counts in first-encounter order of the scanned list. -/
theorem mostCommon_pairwise (l : List String) (k : Nat) :
    (mostCommon l k).Pairwise
      (fun g1 g2 => l.count g1 = l.count g2 → firstIdx l g1 < firstIdx l g2) := by
  unfold mostCommon
  rw [List.pairwise_map]
  refine List.Pairwise.sublist (List.take_sublist k _) ?_
  have hitems : ((firstKeys l).map (fun g => (g, l.count g))).Pairwise
      (fun p q : String × Nat => firstIdx l p.1 < firstIdx l q.1) := by
    rw [List.pairwise_map]
    exact firstKeys_pairwise l
  have hs := ssort_pairwise (fun p : String × Nat => -(p.2 : Int)) _ hitems
  refine hs.imp_of_mem ?_
  intro p q hp hq hR hcount
  have hp2 := (mem_ssort _).mp hp
  have hq2 := (mem_ssort _).mp hq
  obtain ⟨g1, hg1, rfl⟩ := List.mem_map.mp hp2
  obtain ⟨g2, hg2, rfl⟩ := List.mem_map.mp hq2
  exact hR.2 (by simp [hcount])

/-! Bridges between the merged frame and claim-level lookups. -/

theorem find?_eq_head?_filter {α : Type} (p : α → Bool) (l : List α) :
    l.find? p = (l.filter p).head? := by
  induction l with
  | nil => rfl
  | cons a t ih =>
    cases h : p a <;> simp only [List.find?, List.filter, h]
    · exact ih
    · rfl

theorem leftMerge_cons (r : RecRow) (t : List RecRow) (mg : List (Int × List String)) :
    leftMerge (r :: t) mg =
      (match mg.filter (fun m => m.1 == r.movie_id) with
        | [] => [(⟨r.movie_id, r.score, none⟩ : MergedRow)]
        | ms => ms.map (fun m => ⟨r.movie_id, r.score, some m.2⟩)) ++ leftMerge t mg :=
  rfl

theorem leftMerge_cell (mg : List (Int × List String)) (r : RecRow)
    (hr : (mg.filter (fun m => m.1 == r.movie_id)).length ≤ 1) :
    (match mg.filter (fun m => m.1 == r.movie_id) with
      | [] => [(⟨r.movie_id, r.score, none⟩ : MergedRow)]
      | ms => ms.map (fun m => ⟨r.movie_id, r.score, some m.2⟩))
    = [⟨r.movie_id, r.score, (mg.find? (fun m => m.1 == r.movie_id)).map (fun m => m.2)⟩] := by
  have hfe := find?_eq_head?_filter (fun m => m.1 == r.movie_id) mg
  cases hfil : mg.filter (fun m => m.1 == r.movie_id) with
  | nil => rw [hfe, hfil]; rfl
  | cons m ms =>
    have hms : ms = [] := by
      rw [hfil] at hr
      simp only [List.length_cons] at hr
      exact List.eq_nil_of_length_eq_zero (by omega)
    subst hms
    rw [hfe, hfil]; rfl

/-- When every candidate matches at most one metadata row, the left merge is
a per-row map, with the genre list given by the first-match lookup. -/
theorem leftMerge_eq_map {recs : List RecRow} {mg : List (Int × List String)}
    (hm : ∀ r ∈ recs, (mg.filter (fun m => m.1 == r.movie_id)).length ≤ 1) :
    leftMerge recs mg = recs.map (fun r =>
      ⟨r.movie_id, r.score, (mg.find? (fun m => m.1 == r.movie_id)).map (fun m => m.2)⟩) := by
  induction recs with
  | nil => rfl
  | cons r t ih =>
    have hr := hm r (List.mem_cons_self r t)
    have ht : ∀ x ∈ t, (mg.filter (fun m => m.1 == x.movie_id)).length ≤ 1 :=
      fun x hx => hm x (List.mem_cons_of_mem r hx)
    rw [leftMerge_cons, leftMerge_cell mg r hr, ih ht, List.singleton_append, List.map_cons]

theorem overlap_boost_eq (prefs : List String) (og : Option (List String)) :
    overlap_boost prefs og = match og with
      | none => 0
      | some gs => ((gs.dedup.filter (fun g => g ∈ prefs)).length : ℚ) /
          ((max prefs.length 1 : Nat) : ℚ) := by
  cases og with
  | none => rfl
  | some gs =>
    simp only [overlap_boost]
    by_cases h1 : gs.isEmpty
    · rw [if_pos h1]
      rw [List.isEmpty_iff.mp h1]
      simp
    · rw [if_neg h1]
      by_cases h2 : (gs.dedup.filter (fun g => g ∈ prefs)).length = 0
      · rw [if_pos h2, h2]
        simp
      · rw [if_neg h2]

theorem overlap_boost_spec (meta : List MetaRow) (prefs : List String) (mid : Int) :
    overlap_boost prefs (lookupGenres meta mid) = specOverlapRatio meta prefs mid := by
  rw [overlap_boost_eq]
  unfold specOverlapRatio
  cases lookupGenres meta mid <;> rfl

theorem metaPairs_filter (meta : List MetaRow) (mid : Int) :
    ((meta.map (fun m => (m.movie_id, splitGenres m.genres_clean))).filter
        (fun m => m.1 == mid))
      = (meta.filter (fun m => m.movie_id == mid)).map
        (fun m => (m.movie_id, splitGenres m.genres_clean)) := by
  rw [List.filter_map]
  rfl

theorem metaPairs_find? (meta : List MetaRow) (mid : Int) :
    ((meta.map (fun m => (m.movie_id, splitGenres m.genres_clean))).find?
        (fun m => m.1 == mid))
      = (meta.find? (fun m => m.movie_id == mid)).map
        (fun m => (m.movie_id, splitGenres m.genres_clean)) := by
  rw [List.find?_map]
  rfl

/-- With a non-empty preference list and at most one metadata row per
candidate id, `boost_recommendations` is the descending sort of a per-row
computation over the base list. -/
theorem boost_rows_eq (recs : List RecRow) (prefs : List String) (meta : List MetaRow)
    (bf : ℚ) (hp : prefs ≠ [])
    (hm : ∀ r ∈ recs, (meta.filter (fun m => m.movie_id == r.movie_id)).length ≤ 1) :
    boostedRows (boost_recommendations recs prefs meta bf)
      = pandasSortDesc (fun r : BRow => r.score_boosted)
        (recs.map (fun r =>
          BRow.mk r.movie_id r.score (lookupGenres meta r.movie_id)
            (overlap_boost prefs (lookupGenres meta r.movie_id))
            (r.score + bf * (max (1 / 1000000 : ℚ)
              (sMax (recs.map (fun x => x.score)) - sMin (recs.map (fun x => x.score))))
              * overlap_boost prefs (lookupGenres meta r.movie_id)))) := by
  have hne : ¬ (prefs.isEmpty = true) := by simp [List.isEmpty_iff, hp]
  have hm2 : ∀ r ∈ recs,
      (((meta.map (fun m => (m.movie_id, splitGenres m.genres_clean))).filter
        (fun m => m.1 == r.movie_id)).length ≤ 1) := by
    intro r hr
    rw [metaPairs_filter, List.length_map]
    exact hm r hr
  unfold boost_recommendations
  rw [if_neg hne]
  simp only [boostedRows]
  rw [leftMerge_eq_map hm2]
  simp only [List.map_map, metaPairs_find?, Option.map_map]
  rfl

/-- Claim C2 counterexample: with an empty affinity profile the code path
`if not user_pref_genres: return recs_df` hands back the input frame itself;
no `overlap` column exists on the result, so "every entry carries
`overlapRatio = 0`" is false — there is no overlap field at all. -/
theorem claim_C2_counterexample :
    boost_recommendations [⟨1, 5⟩] [] [] (1 / 4) = .plain [⟨1, 5⟩] ∧
    carriesZeroOverlap (boost_recommendations [⟨1, 5⟩] [] [] (1 / 4)) = false :=
  ⟨rfl, rfl⟩

/-- Claim C2 (amended): for every base list and boost factor in `(0, 1]`,
boosting with an empty affinity profile returns the input frame itself —
same order, same scores, and no `overlap` column is added (the early return
`return recs_df`). -/
theorem claim_C2_amended (recs : List RecRow) (meta : List MetaRow) (bf : ℚ)
    (h1 : 0 < bf) (h2 : bf ≤ 1) :
    boost_recommendations recs [] meta bf = .plain recs :=
  rfl

/-- Witness for the amended C2 at a concrete input. -/
theorem claim_C2_witness :
    boost_recommendations [⟨1, 5⟩] [] [⟨1, "A"⟩] (1 / 4) = .plain [⟨1, 5⟩] ∧
    (0 : ℚ) < 1 / 4 ∧ (1 / 4 : ℚ) ≤ 1 :=
  ⟨claim_C2_amended [⟨1, 5⟩] [⟨1, "A"⟩] (1 / 4) (by norm_num) (by norm_num),
    by norm_num, by norm_num⟩

unseal Rat.add Rat.mul Rat.inv Rat.sub in
/-- Claim C3 counterexample: two candidates with equal scores (and equal
boosted scores, both overlaps being 0) come out in reversed input order —
pandas `sort_values(ascending=False)` reverses the stable ascending argsort,
so ties do not retain their relative input order. The claimed stable sort
would keep the id order `[1, 2]`; the code produces `[2, 1]`. -/
theorem claim_C3_counterexample :
    (boostedRows (boost_recommendations [⟨1, 5⟩, ⟨2, 5⟩] ["X"] [⟨1, "A"⟩, ⟨2, "B"⟩]
        (1 / 4))).map (fun r => (r.movie_id, r.score_boosted))
      = [(2, 5), (1, 5)] ∧
    ([(2 : Int), 1] : List Int) ≠ [1, 2] := by
  exact ⟨by decide, by decide⟩

/-- Claim C3 (amended): after boosting, the result is sorted by
`score_boosted` descending and has the same length as the input base list
(when each candidate id has at most one metadata row, as the catalog key
invariant guarantees); the sort is not stable — rows with equal boosted
scores appear in reversed input order. -/
theorem claim_C3_amended (recs : List RecRow) (prefs : List String) (meta : List MetaRow)
    (bf : ℚ) (hp : prefs ≠ [])
    (hm : ∀ r ∈ recs, (meta.filter (fun m => m.movie_id == r.movie_id)).length ≤ 1) :
    (boostedRows (boost_recommendations recs prefs meta bf)).length = recs.length ∧
    (boostedRows (boost_recommendations recs prefs meta bf)).Pairwise
      (fun a b => b.score_boosted ≤ a.score_boosted) := by
  rw [boost_rows_eq recs prefs meta bf hp hm]
  exact ⟨by rw [length_pandasSortDesc, List.length_map], pandasSortDesc_sorted _ _⟩

/-- Witness for the amended C3 at a concrete input. -/
theorem claim_C3_witness :
    (boostedRows (boost_recommendations [⟨1, 5⟩, ⟨2, 3⟩] ["A"] [⟨1, "A"⟩] (1 / 4))).length
      = 2 ∧
    (boostedRows (boost_recommendations [⟨1, 5⟩, ⟨2, 3⟩] ["A"] [⟨1, "A"⟩]
      (1 / 4))).Pairwise (fun a b => b.score_boosted ≤ a.score_boosted) := by
  have h := claim_C3_amended [⟨1, 5⟩, ⟨2, 3⟩] ["A"] [⟨1, "A"⟩] (1 / 4)
    (by decide) (by decide)
  exact ⟨h.1, h.2⟩

unseal Rat.add Rat.mul Rat.inv Rat.sub in
/-- Claim C4 counterexample: with scores `0` and `1e-7` the range is positive
and the list has two entries, so per the claim `scoreRange = 1e-7` and the
matching entry's boosted score would be `1e-7 + 0.25 * 1e-7 * 1 = 1/8000000`;
the code floors the range at `1e-6` (`max(1e-6, max_s - min_s)`) and yields
`1e-7 + 0.25 * 1e-6 * 1 = 7/20000000`. -/
theorem claim_C4_counterexample :
    (boostedRows (boost_recommendations [⟨1, 0⟩, ⟨2, 1 / 10000000⟩] ["Action"]
        [⟨1, "Drama"⟩, ⟨2, "Action"⟩] (1 / 4))).map
        (fun r => (r.movie_id, r.score, r.overlap, r.score_boosted))
      = [(2, 1 / 10000000, 1, 7 / 20000000), (1, 0, 0, 0)] ∧
    (7 / 20000000 : ℚ) ≠ 1 / 10000000 + (1 / 4) * (1 / 10000000 - 0) * 1 := by
  exact ⟨by decide, by decide⟩

/-- Claim C4 (amended): for a non-empty base list and non-empty profile,
each boosted row satisfies
`score_boosted = score + boostFactor * scoreRange * overlapRatio` with
`overlapRatio = |entry.genres ∩ profile| / max(|profile|, 1)` (genres looked
up by id in the metadata; an id with no metadata row contributes 0), and
`scoreRange = max(1e-6, max(score) - min(score))` — the `1e-6` floor applies
whenever the range is below `1e-6`, not only when all scores are equal or
the list has fewer than two items. -/
theorem claim_C4_amended (recs : List RecRow) (prefs : List String) (meta : List MetaRow)
    (bf : ℚ) (hp : prefs ≠ []) (hr : recs ≠ [])
    (hm : ∀ r ∈ recs, (meta.filter (fun m => m.movie_id == r.movie_id)).length ≤ 1) :
    ∀ row ∈ boostedRows (boost_recommendations recs prefs meta bf),
      row.overlap = specOverlapRatio meta prefs row.movie_id ∧
      row.score_boosted = row.score + bf * (max (1 / 1000000 : ℚ)
        (sMax (recs.map (fun x => x.score)) - sMin (recs.map (fun x => x.score))))
        * row.overlap := by
  rw [boost_rows_eq recs prefs meta bf hp hm]
  intro row hrow
  obtain ⟨r, hrm, rfl⟩ := List.mem_map.mp ((mem_pandasSortDesc _).mp hrow)
  exact ⟨overlap_boost_spec meta prefs r.movie_id, rfl⟩

unseal Rat.add Rat.mul Rat.inv Rat.sub in
/-- Witness for the amended C4 at a concrete input (single candidate with a
full genre match: range floor `1e-6`, overlap `1`,
boosted `5 + 1/4 * 1e-6 * 1`). -/
theorem claim_C4_witness :
    (⟨1, 5, some ["A"], 1, 5 + 1 / 4000000⟩ : BRow).overlap
        = specOverlapRatio [⟨1, "A"⟩] ["A"] 1 ∧
    (⟨1, 5, some ["A"], 1, 5 + 1 / 4000000⟩ : BRow).score_boosted
        = (⟨1, 5, some ["A"], 1, 5 + 1 / 4000000⟩ : BRow).score + (1 / 4) *
          (max (1 / 1000000 : ℚ) (sMax (([⟨1, 5⟩] : List RecRow).map (fun x => x.score)) -
            sMin (([⟨1, 5⟩] : List RecRow).map (fun x => x.score))))
          * (⟨1, 5, some ["A"], 1, 5 + 1 / 4000000⟩ : BRow).overlap :=
  claim_C4_amended [⟨1, 5⟩] ["A"] [⟨1, "A"⟩] (1 / 4) (by decide) (by decide) (by decide)
    ⟨1, 5, some ["A"], 1, 5 + 1 / 4000000⟩ (by decide)

/-- Claim C5: for every catalog, watched set and `k`, the affinity profile
`get_top_genres` has at most `k` genres, and genres with equal counts appear
in the order their first occurrence comes in the catalog-order genre scan
(`scanGenres`) — not alphabetical order and not insertion-time order, since
the scan follows `movies_df` row order. -/
theorem claim_C5_profile_tiebreak (movies_df : List Movie) (watched : List String) (k : Nat) :
    (get_top_genres movies_df watched k).length ≤ k ∧
    (get_top_genres movies_df watched k).Pairwise (fun g1 g2 =>
      (scanGenres movies_df watched).count g1 = (scanGenres movies_df watched).count g2 →
      firstIdx (scanGenres movies_df watched) g1 <
        firstIdx (scanGenres movies_df watched) g2) := by
  unfold get_top_genres
  by_cases h : watched.isEmpty
  · rw [if_pos h]
    exact ⟨Nat.zero_le k, List.Pairwise.nil⟩
  · rw [if_neg h]
    exact ⟨length_mostCommon_le _ _, mostCommon_pairwise _ _⟩

/-- Claim C6 counterexample: the claim fails at two concrete inputs.
First, a user present in the pickled model gets the model's list
unmodified — `recs = final_recs[user_id]` has no truncation — so with
limit 1 and a two-title model list the result has length 2.  Second, the
fallback is not "the catalog's highest-rated entries not yet watched
truncated to limit": with catalog X (Horror, 5), Y (Action, 4),
Z (Action, 3), watched = [Y] and limit 2, the highest-rated unwatched
entries truncated to 2 are [X, Z] (computed with the same descending
rating sort), but the code restricts candidates to the user's top watched
genres and returns [Z] only, dropping the highest-rated unwatched title X. -/
theorem claim_C6_counterexample :
    (recommendations_for_tab [((1 : Int), ["A", "B"])] (some 1) [] [] 1 = ["A", "B"] ∧
      ¬ ((recommendations_for_tab [((1 : Int), ["A", "B"])] (some 1) [] [] 1).length ≤ 1)) ∧
    (get_genre_recommendations
        [⟨"X", "Horror", 5⟩, ⟨"Y", "Action", 4⟩, ⟨"Z", "Action", 3⟩] ["Y"] 2 = ["Z"] ∧
      ((pandasSortDesc (fun m : Movie => m.avg_rating)
          (([⟨"X", "Horror", 5⟩, ⟨"Y", "Action", 4⟩, ⟨"Z", "Action", 3⟩] : List Movie).filter
            (fun m => decide (m.title ∉ (["Y"] : List String))))).take 2).map
          (fun m => m.title) = ["X", "Z"] ∧
      (["Z"] : List String) ≠ ["X", "Z"]) := by
  exact ⟨⟨rfl, by decide⟩, by decide, by decide, by decide⟩

/-- Claim C6 (amended): when the model has a result for the user, the
dispatch returns it untruncated; otherwise the genre fallback returns at
most `top_n` titles, all of them catalog titles not watched by the user —
restricted, when the user has watched anything, to titles whose genre string
contains one of the user's top-4 genres — and an empty catalog yields an
empty list rather than an error. -/
theorem claim_C6_amended (final_recs : List (Int × List String)) (uid : Option Int)
    (movies_df : List Movie) (watched : List String) (top_n : Nat) :
    (∀ u pr, uid = some u → final_recs.find? (fun p => p.1 == u) = some pr →
      recommendations_for_tab final_recs uid movies_df watched top_n = pr.2) ∧
    (get_genre_recommendations movies_df watched top_n).length ≤ top_n ∧
    (∀ t ∈ get_genre_recommendations movies_df watched top_n,
      (∃ m ∈ movies_df, m.title = t) ∧ t ∉ watched) ∧
    (movies_df = [] → get_genre_recommendations movies_df watched top_n = []) ∧
    (uid = none → recommendations_for_tab final_recs uid movies_df watched top_n
      = get_genre_recommendations movies_df watched top_n) ∧
    (watched ≠ [] → ∀ t ∈ get_genre_recommendations movies_df watched top_n,
      ∃ m ∈ movies_df, m.title = t ∧
        (mostCommon (scanGenres movies_df watched) 4).any
          (fun g => substrS g m.genres_clean) = true) := by
  refine ⟨?_, ?_, ?_, ?_, ?_, ?_⟩
  · intro u pr hu hfind
    subst hu
    simp only [recommendations_for_tab, hfind]
  · unfold get_genre_recommendations
    by_cases h : watched.isEmpty
    · rw [if_pos h]
      simp only [List.length_map]
      exact List.length_take_le _ _
    · rw [if_neg h]
      simp only [List.length_map]
      exact List.length_take_le _ _
  · intro t ht
    unfold get_genre_recommendations at ht
    by_cases h : watched.isEmpty
    · rw [if_pos h] at ht
      obtain ⟨m, hm, rfl⟩ := List.mem_map.mp ht
      have hm2 := (mem_pandasSortDesc _).mp (List.mem_of_mem_take hm)
      refine ⟨⟨m, hm2, rfl⟩, ?_⟩
      rw [List.isEmpty_iff.mp h]
      exact List.not_mem_nil _
    · rw [if_neg h] at ht
      obtain ⟨m, hm, rfl⟩ := List.mem_map.mp ht
      have hm2 := (mem_pandasSortDesc _).mp (List.mem_of_mem_take hm)
      have hm3 := (List.mem_filter.mp hm2).1
      have hm4 := List.mem_filter.mp hm3
      exact ⟨⟨m, hm4.1, rfl⟩, of_decide_eq_true hm4.2⟩
  · intro hcat
    subst hcat
    unfold get_genre_recommendations
    by_cases h : watched.isEmpty
    · rw [if_pos h]
      simp [pandasSortDesc, ssort]
    · rw [if_neg h]
      simp [pandasSortDesc, ssort]
  · intro hu
    subst hu
    rfl
  · intro hw t ht
    have hne : ¬ (watched.isEmpty = true) := by simp [List.isEmpty_iff, hw]
    unfold get_genre_recommendations at ht
    rw [if_neg hne] at ht
    obtain ⟨m, hm, rfl⟩ := List.mem_map.mp ht
    have hm2 := (mem_pandasSortDesc _).mp (List.mem_of_mem_take hm)
    have hm3 := List.mem_filter.mp hm2
    have hm4 := List.mem_filter.mp hm3.1
    exact ⟨m, hm4.1, rfl, hm3.2⟩

/-- Witness for the amended C6 at concrete inputs: the model path returns
the stored list, the fallback respects the limit, and a fallback title is
backed by a catalog row matching a top watched genre. -/
theorem claim_C6_witness :
    recommendations_for_tab [((1 : Int), ["A", "B"])] (some 1) [] [] 5 = ["A", "B"] ∧
    (get_genre_recommendations [⟨"X", "Horror", 5⟩] [] 1).length ≤ 1 ∧
    (∃ m ∈ ([⟨"Y", "Action", 4⟩, ⟨"Z", "Action", 3⟩] : List Movie), m.title = "Z" ∧
      (mostCommon (scanGenres [⟨"Y", "Action", 4⟩, ⟨"Z", "Action", 3⟩] ["Y"]) 4).any
        (fun g => substrS g m.genres_clean) = true) :=
  ⟨(claim_C6_amended [((1 : Int), ["A", "B"])] (some 1) [] [] 5).1 1 (1, ["A", "B"])
      rfl rfl,
    (claim_C6_amended [] none [⟨"X", "Horror", 5⟩] [] 1).2.1,
    (claim_C6_amended [] none [⟨"Y", "Action", 4⟩, ⟨"Z", "Action", 3⟩] ["Y"] 2).2.2.2.2.2
      (by decide) "Z" (by decide)⟩

/-- Claim C7 counterexample: the plain-INSERT `mark_watched` variant appends
unconditionally, so marking an already-watched title changes the store and
creates a duplicate `(user, title)` record. -/
theorem claim_C7_counterexample :
    mark_watched_plain [("u", "m")] "u" "m" = [("u", "m"), ("u", "m")] ∧
    ¬ ([("u", "m"), ("u", "m")] : List (String × String)).Nodup ∧
    mark_watched_plain [("u", "m")] "u" "m" ≠ [("u", "m")] := by
  exact ⟨rfl, by decide, by decide⟩

/-- Claim C7 (amended): the duplicate-checked `mark_watched` variant is
idempotent — marking an already-watched title leaves the store unchanged,
remarking is a no-op — and preserves the no-duplicates invariant; the
plain-INSERT variant does not (see the counterexample). -/
theorem claim_C7_amended (watched : List (String × String)) (u t : String) :
    ((u, t) ∈ watched → mark_watched watched u t = watched) ∧
    mark_watched (mark_watched watched u t) u t = mark_watched watched u t ∧
    (watched.Nodup → (mark_watched watched u t).Nodup) := by
  have hmem_any : ∀ l : List (String × String), (u, t) ∈ l →
      l.any (fun p => p.1 == u && p.2 == t) = true :=
    fun l hmem => List.any_eq_true.mpr ⟨(u, t), hmem, by simp⟩
  have step : ∀ l : List (String × String), (u, t) ∈ l → mark_watched l u t = l := by
    intro l hl
    unfold mark_watched
    rw [if_pos (hmem_any l hl)]
  have hmm : (u, t) ∈ mark_watched watched u t := by
    unfold mark_watched
    by_cases hc : watched.any (fun p => p.1 == u && p.2 == t) = true
    · rw [if_pos hc]
      obtain ⟨⟨a, b⟩, hab, habe⟩ := List.any_eq_true.mp hc
      simp only [Bool.and_eq_true, beq_iff_eq] at habe
      rcases habe with ⟨rfl, rfl⟩
      exact hab
    · rw [if_neg hc]
      simp
  refine ⟨step watched, step _ hmm, ?_⟩
  intro hnd
  unfold mark_watched
  by_cases hc : watched.any (fun p => p.1 == u && p.2 == t) = true
  · rw [if_pos hc]
    exact hnd
  · rw [if_neg hc]
    refine hnd.append (List.nodup_singleton _) ?_
    intro x hx hx2
    rcases List.mem_singleton.mp hx2 with rfl
    exact hc (hmem_any watched hx)

/-- Witness for the amended C7 at a concrete input. -/
theorem claim_C7_witness :
    mark_watched [("u", "m")] "u" "m" = [("u", "m")] ∧
    (mark_watched [("u", "m")] "u" "m").Nodup :=
  ⟨(claim_C7_amended [("u", "m")] "u" "m").1 (by decide),
    (claim_C7_amended [("u", "m")] "u" "m").2.2 (by decide)⟩

unseal Rat.add Rat.mul Rat.inv Rat.sub in
/-- Claim C8 counterexample: `recommend_for_user` does not skip a candidate
whose movie id is missing from the catalog — it keeps the entry under the
placeholder title `"Movie ID 99"` instead of excluding it. -/
theorem claim_C8_counterexample :
    recommend_for_user 1 [(1, 99, 9 / 2)] [] 10 = [("Movie ID 99", 9 / 2)] ∧
    recommend_for_user 1 [(1, 99, 9 / 2)] [] 10 ≠ [] := by
  exact ⟨by decide, by decide⟩

/-- Claim C8 (amended): no path raises an error on a candidate id missing
from the catalog, but the handling differs: the card-rendering
recommendation path silently skips such titles (the rendered list is exactly
the recommended titles that have a catalog row, in order), while
`recommend_for_user` keeps the entry with a placeholder title and
`boost_recommendations` keeps it with zero overlap. -/
theorem claim_C8_amended (movies_df : List Movie) (recs : List String) :
    List.Sublist (rendered_rec_titles movies_df recs) recs ∧
    (∀ t ∈ rendered_rec_titles movies_df recs, ∃ m ∈ movies_df, m.title = t) ∧
    (∀ t ∈ recs, (∃ m ∈ movies_df, m.title = t) → t ∈ rendered_rec_titles movies_df recs) := by
  refine ⟨List.filter_sublist recs, ?_, ?_⟩
  · intro t ht
    have h2 := (List.mem_filter.mp ht).2
    have h3 : ∃ m, m ∈ movies_df ∧ (fun m : Movie => m.title == t) m := by
      have h4 := @List.find?_isSome Movie movies_df (fun m => m.title == t)
      exact h4.mp (by simpa using h2)
    obtain ⟨m, hm, hmt⟩ := h3
    exact ⟨m, hm, by simpa using hmt⟩
  · intro t ht hex
    obtain ⟨m, hm, hmt⟩ := hex
    refine List.mem_filter.mpr ⟨ht, ?_⟩
    have : (movies_df.find? (fun m => m.title == t)).isSome :=
      (@List.find?_isSome Movie movies_df (fun m => m.title == t)).mpr
        ⟨m, hm, by simp [hmt]⟩
    simpa using this

/-- Witness for the amended C8 at a concrete input: title "A" has a catalog
row and stays; the sublist part shows "B" may only be dropped, not
reordered. -/
theorem claim_C8_witness :
    List.Sublist (rendered_rec_titles [⟨"A", "g", 1⟩] ["A", "B"]) ["A", "B"] ∧
    ("A" : String) ∈ rendered_rec_titles [⟨"A", "g", 1⟩] ["A", "B"] :=
  ⟨(claim_C8_amended [⟨"A", "g", 1⟩] ["A", "B"]).1,
    (claim_C8_amended [⟨"A", "g", 1⟩] ["A", "B"]).2.2 "A" (by decide)
      ⟨⟨"A", "g", 1⟩, List.mem_cons_self _ _, rfl⟩⟩

/-- Claim C9: `unwatch_movie` deletes by exact `(username, movie_title)`
match; removing a record that is not in the store leaves the store
unchanged (and a second removal is always a no-op) — no error path exists. -/
theorem claim_C9_unwatch_idempotent (watched : List (String × String)) (u t : String)
    (h : (u, t) ∉ watched) :
    unwatch_movie watched u t = watched ∧
    unwatch_movie (unwatch_movie watched u t) u t = unwatch_movie watched u t := by
  have h1 : unwatch_movie watched u t = watched := by
    unfold unwatch_movie
    apply List.filter_eq_self.mpr
    intro p hp
    rcases p with ⟨a, b⟩
    cases hau : (a == u) with
    | false => simp [hau]
    | true =>
      cases hbt : (b == t) with
      | false => simp [hau, hbt]
      | true =>
        exfalso
        have ha : a = u := by simpa using hau
        have hb : b = t := by simpa using hbt
        subst ha; subst hb
        exact h hp
  exact ⟨h1, by rw [h1, h1]⟩

/-- Witness for C9 at a concrete input. -/
theorem claim_C9_witness :
    unwatch_movie [("alice", "Heat")] "alice" "Fargo" = [("alice", "Heat")] :=
  (claim_C9_unwatch_idempotent [("alice", "Heat")] "alice" "Fargo" (by decide)).1

/-- Claim C1: for every external model, catalog, watched set, limit and
boost parameters, the composed `recommend()` returns at most `limit` ids and
none of them is in the user's watched set (the final step filters watched
ids and truncates to `limit`). -/
theorem claim_C1_recommend (model : Option (List (Int × ℚ))) (catalog : List CatEntry)
    (watched : List Int) (limit : Nat) (bf : ℚ) (k : Nat) :
    (recommend model catalog watched limit bf k).length ≤ limit ∧
    ∀ i ∈ recommend model catalog watched limit bf k, i ∉ watched := by
  constructor
  · exact List.length_take_le _ _
  · intro i hi
    have hi2 : i ∈ (resultIds (boost_recommendations
        ((baseRecommendations model catalog watched (limit * 3)).map
          (fun p => RecRow.mk p.1 p.2))
        (mostCommon ((catalog.filter (fun c => c.id ∈ watched)).flatMap
          (fun c => splitGenres c.genres_clean)) k)
        (catalog.map (fun c => MetaRow.mk c.id c.genres_clean)) bf)).filter
        (fun i => decide (i ∉ watched)) :=
      List.mem_of_mem_take hi
    exact of_decide_eq_true (List.mem_filter.mp hi2).2

unseal Rat.add Rat.mul Rat.inv Rat.sub in
/-- Witness for C1 at a concrete input: catalog of two titles, title 2
watched, limit 1; the result is `[1]`. -/
theorem claim_C1_witness :
    (recommend none [⟨1, "Action", 5⟩, ⟨2, "Drama", 3⟩] [2] 1 (1 / 4) 1).length ≤ 1 ∧
    (1 : Int) ∉ [(2 : Int)] :=
  ⟨(claim_C1_recommend none [⟨1, "Action", 5⟩, ⟨2, "Drama", 3⟩] [2] 1 (1 / 4) 1).1,
    (claim_C1_recommend none [⟨1, "Action", 5⟩, ⟨2, "Drama", 3⟩] [2] 1 (1 / 4) 1).2 1
      (by decide)⟩

/-- Reading below the original heap top is unaffected by appending a frame. -/
theorem heap_read_append (l : List FrameV) (x : FrameV) (i : Nat) (hi : i < l.length) :
    (l ++ [x])[i]? = l[i]? :=
  List.getElem?_append_left hi

/-- Reading an index other than the written one is unaffected by a `set`. -/
theorem heap_read_set (l : List FrameV) (j : Nat) (v : FrameV) (i : Nat) (hij : j ≠ i) :
    (l.set j v)[i]? = l[i]? :=
  List.getElem?_set_ne hij

/-- Claim C10: `boost_recommendations` never mutates the caller's frames.
In the heap model every in-place column write (`meta['genres_list']`,
`merged['overlap']`, `merged['score_boosted']`) targets an object allocated
inside the call (`copy()`, `merge`, `sort_values().reset_index()`), so after
the call the two argument references read exactly what they read before. -/
theorem claim_C10_no_mutation (h : List FrameV) (recsRef metaRef : Nat)
    (prefs : List String) (bf : ℚ)
    (hr : recsRef < h.length) (hm : metaRef < h.length) :
    (boost_heap h recsRef metaRef prefs bf).1[recsRef]? = h[recsRef]? ∧
    (boost_heap h recsRef metaRef prefs bf).1[metaRef]? = h[metaRef]? := by
  by_cases hp : prefs.isEmpty
  · unfold boost_heap
    rw [if_pos hp]
    exact ⟨rfl, rfl⟩
  · unfold boost_heap
    rw [if_neg hp]
    simp only [List.length_set, List.length_append, List.length_cons, List.length_nil]
    constructor
    · rw [heap_read_append _ _ _ (by simp [List.length_set, List.length_append]; omega),
        heap_read_set _ _ _ _ (by simp [List.length_set, List.length_append]; omega),
        heap_read_set _ _ _ _ (by simp [List.length_set, List.length_append]; omega),
        heap_read_append _ _ _ (by simp [List.length_set, List.length_append]; omega),
        heap_read_set _ _ _ _ (by omega),
        heap_read_append _ _ _ hr]
    · rw [heap_read_append _ _ _ (by simp [List.length_set, List.length_append]; omega),
        heap_read_set _ _ _ _ (by simp [List.length_set, List.length_append]; omega),
        heap_read_set _ _ _ _ (by simp [List.length_set, List.length_append]; omega),
        heap_read_append _ _ _ (by simp [List.length_set, List.length_append]; omega),
        heap_read_set _ _ _ _ (by omega),
        heap_read_append _ _ _ hm]

/-- Witness for C10 at a concrete two-frame heap. -/
theorem claim_C10_witness :
    ((boost_heap [FrameV.recsF [⟨1, 5⟩], FrameV.metaF [⟨1, "A"⟩]] 0 1 ["A"]
        (1 / 4)).1[0]?
      = ([FrameV.recsF [⟨1, 5⟩], FrameV.metaF [⟨1, "A"⟩]] : List FrameV)[0]?) ∧
    ((boost_heap [FrameV.recsF [⟨1, 5⟩], FrameV.metaF [⟨1, "A"⟩]] 0 1 ["A"]
        (1 / 4)).1[1]?
      = ([FrameV.recsF [⟨1, 5⟩], FrameV.metaF [⟨1, "A"⟩]] : List FrameV)[1]?) :=
  claim_C10_no_mutation [FrameV.recsF [⟨1, 5⟩], FrameV.metaF [⟨1, "A"⟩]] 0 1 ["A"]
    (1 / 4) (by decide) (by decide)
